import Mathlib

/-!
Shallow embedding of the KhloesKicks auction marketplace core:
the bid route of `src/server.js` (and the PostgreSQL revision of the same
route), and the `ShippingManager` of `src/services/shippingManager.js`
(rate aggregation, best-rate selection, address validation and shipment
building).  Amounts and money are modelled as exact rationals, timestamps
as integers (milliseconds), JavaScript numbers coming from user input as
an explicit sum type with NaN and the infinities.
-/

namespace KhloesKicks

/-! ### JavaScript number model

`Number(req.body.amount)` can produce NaN, an infinity, or a finite
double; finite doubles are modelled as exact rationals. -/

inductive JSNum where
  | nan
  | posInf
  | negInf
  | fin (q : ℚ)
deriving DecidableEq, Repr

/-- Model of `Number.isFinite`. -/
def JSNum.isFinite : JSNum → Bool
  | .fin _ => true
  | _ => false

/-- Truncation toward zero, as JavaScript's remainder operator uses. -/
def jsTrunc (q : ℚ) : ℤ :=
  if 0 ≤ q then ⌊q⌋ else -⌊-q⌋

/-- Model of the JavaScript remainder `q % m`:
`q - m * trunc(q / m)` (sign follows the dividend). -/
def jsRem (q m : ℚ) : ℚ :=
  q - m * (jsTrunc (q / m) : ℚ)

/-! ### Auction data model

Mirrors the columns of the `auctions` table that the bid route reads and
writes (`status`, `end_time`, `starting_bid`, `current_bid`,
`current_bid_user_id`). -/

structure Auction where
  status : String
  endTime : ℤ
  startingBid : ℚ
  currentBid : Option ℚ
  currentBidUserId : Option ℤ
deriving DecidableEq, Repr

/-- Outcome of the bid route `app.post('/auction/:id/bid')` in
`src/server.js`, one constructor per `res.status(400).send(...)` branch
plus acceptance.  `belowMinimum` carries the minimum printed in
`Minimum next bid is ${min}`. -/
inductive BidOutcome where
  | auctionEnded
  | invalidAmount
  | badIncrement
  | belowMinimum (minNext : ℚ)
  | accepted (amount : ℚ)
deriving DecidableEq, Repr

/-- The decision logic of the bid route in `src/server.js`, lines 475-484:

`if (dayjs(auction.end_time).isBefore(now) || auction.status !== 'open')`
rejects with `Auction ended`;
`if (!Number.isFinite(amt) || amt <= 0)` rejects with `Invalid amount`;
`if (amt % 100 !== 0)` rejects with `Bids must be in increments of 100`;
`const min = Math.max(auction.starting_bid, auction.current_bid || 0) + 100`
and `if (amt < min)` rejects with `Minimum next bid is ${min}`;
otherwise the bid is accepted.  `auction.current_bid || 0` is 0 both for
NULL and for 0, hence `Option.getD 0`. -/
def bidDecision (a : Auction) (now : ℤ) (amt : JSNum) : BidOutcome :=
  if a.endTime < now ∨ a.status ≠ "open" then .auctionEnded
  else
    match amt with
    | .fin q =>
      if q ≤ 0 then .invalidAmount
      else if jsRem q 100 ≠ 0 then .badIncrement
      else
        let minNext := max a.startingBid (a.currentBid.getD 0) + 100
        if q < minNext then .belowMinimum minNext
        else .accepted q
    | _ => .invalidAmount

/-! ### Persistence model for the accepted-bid writes

The accepted branch performs two writes: `INSERT INTO bids ...` and
`UPDATE auctions SET current_bid = ?, current_bid_user_id = ?`.
`src/server.js` runs them inside `db.transaction(() => { ... })()`
(better-sqlite3: commit on success, roll back to the pre-transaction
state if anything inside throws).  The PostgreSQL revision of the route
(`src/unnamed/part_004`, lines 495-499) instead issues the two queries
as independent awaited statements, each autocommitted, with no
BEGIN/COMMIT around them. -/

structure BidRow where
  auctionId : ℤ
  userId : ℤ
  amount : ℚ
  createdAt : ℤ
deriving DecidableEq, Repr

structure DBState where
  bids : List BidRow
  auction : Auction
deriving DecidableEq, Repr

/-- The `INSERT INTO bids (auction_id, user_id, amount, created_at)` write. -/
def insertBidWrite (auctionId userId : ℤ) (amt : ℚ) (t : ℤ) : DBState → DBState :=
  fun s => { s with bids := s.bids ++ [⟨auctionId, userId, amt, t⟩] }

/-- The `UPDATE auctions SET current_bid = ?, current_bid_user_id = ?` write. -/
def updateAuctionBidWrite (amt : ℚ) (userId : ℤ) : DBState → DBState :=
  fun s =>
    { s with auction :=
        { s.auction with currentBid := some amt, currentBidUserId := some userId } }

/-- The two writes of the accepted branch, in source order. -/
def acceptedBidWrites (auctionId userId : ℤ) (amt : ℚ) (t : ℤ) :
    List (DBState → DBState) :=
  [insertBidWrite auctionId userId amt t, updateAuctionBidWrite amt userId]

/-- Run writes one at a time starting at index `k`; `fails i = true` means
the `i`-th write raises (I/O failure) before taking effect.  Returns the
state holding every write that ran, with a success flag. -/
def runWritesFrom (fails : ℕ → Bool) :
    List (DBState → DBState) → ℕ → DBState → DBState × Bool
  | [], _, s => (s, true)
  | w :: ws, k, s =>
      if fails k then (s, false) else runWritesFrom fails ws (k + 1) (w s)

/-- better-sqlite3 `db.transaction(fn)()`: if every write succeeds the
new state commits; if any write throws, the whole transaction rolls back
and the observable state is the pre-transaction state. -/
def sqliteTransaction (writes : List (DBState → DBState)) (fails : ℕ → Bool)
    (s : DBState) : DBState :=
  match runWritesFrom fails writes 0 s with
  | (s', true) => s'
  | (_, false) => s

/-- The part_004 route: each `await query(...)` autocommits on its own;
on a failure the error propagates, but every earlier write stays
committed. -/
def pgAutocommitRun (writes : List (DBState → DBState)) (fails : ℕ → Bool)
    (s : DBState) : DBState :=
  (runWritesFrom fails writes 0 s).1

/-- The whole `src/server.js` bid route on the happy I/O path: decide,
and on acceptance run the two writes in one sqlite transaction. -/
def placeBidRoute (s : DBState) (auctionId userId : ℤ) (now t : ℤ)
    (amt : JSNum) : BidOutcome × DBState :=
  match bidDecision s.auction now amt with
  | .accepted q =>
      (.accepted q,
        sqliteTransaction (acceptedBidWrites auctionId userId q t)
          (fun _ => false) s)
  | r => (r, s)

/-! ### Helper lemmas for the bid route -/

/-- If the JavaScript remainder `q % 100` is zero then `q` is an integer
(denominator 1): a finite non-integer amount can never be a multiple of
the increment. -/
theorem den_eq_one_of_jsRem_hundred_eq_zero (q : ℚ) (h : jsRem q 100 = 0) :
    q.den = 1 := by
  have hq : q = 100 * ((jsTrunc (q / 100) : ℤ) : ℚ) := by
    have h' := sub_eq_zero.mp h
    linarith [h']
  have hcast : (100 : ℚ) * ((jsTrunc (q / 100) : ℤ) : ℚ) =
      ((100 * jsTrunc (q / 100) : ℤ) : ℚ) := by push_cast; ring
  rw [hq, hcast, Rat.den_intCast]

/-! ### Claim theorems for the bid route -/

/-- C1: the claim says the bid-row insert and the auction update commit
together or not at all.  `src/server.js` (better-sqlite3
`db.transaction`) satisfies this: for every starting state and every
failure pattern the observable state is either unchanged or has both
writes applied.  The PostgreSQL revision of the same route
(`src/unnamed/part_004`) does not: it runs the two queries as
independent autocommitted statements (despite its own comment `Use
PostgreSQL transaction` and despite `database.js` providing a
`transaction(callback)` wrapper), so when the `UPDATE auctions` query
fails after the `INSERT INTO bids` query committed, the database is left
with a bid row and no matching auction update — the exact state the
claim forbids. -/
theorem acceptedBid_atomic_in_sqlite_but_not_in_pg_revision :
    (∀ (s : DBState) (fails : ℕ → Bool) (aid uid : ℤ) (amt : ℚ) (t : ℤ),
      sqliteTransaction (acceptedBidWrites aid uid amt t) fails s = s ∨
      sqliteTransaction (acceptedBidWrites aid uid amt t) fails s =
        updateAuctionBidWrite amt uid (insertBidWrite aid uid amt t s))
    ∧ pgAutocommitRun (acceptedBidWrites 1 7 1100 5) (fun k => k == 1)
        ⟨[], ⟨"open", 100, 1000, none, none⟩⟩ =
      ⟨[⟨1, 7, 1100, 5⟩], ⟨"open", 100, 1000, none, none⟩⟩ := by
  constructor
  · intro s fails aid uid amt t
    simp only [sqliteTransaction, acceptedBidWrites, runWritesFrom]
    by_cases h0 : fails 0
    · simp [h0]
    · by_cases h1 : fails 1
      · simp [h0, h1]
      · simp [h0, h1]
  · simp [pgAutocommitRun, acceptedBidWrites, runWritesFrom, insertBidWrite,
      updateAuctionBidWrite]

/-- C2, counterexample: with `startingBid = 150` (the admin auction form
accepts any number, `Number(starting_bid || 0)`), no current bid, status
open and `now < endTime`, the claimed always-accepted amount
`max(startingBid, currentBid ?? 0) + increment = 250` is in fact
rejected with BadIncrement, because `250 % 100 !== 0` is checked before
the minimum rule. -/
theorem minimum_plus_increment_bid_rejected_when_start_not_multiple :
    (5 : ℤ) < 10
    ∧ (250 : ℚ) = max (150 : ℚ) ((none : Option ℚ).getD 0) + 100
    ∧ bidDecision ⟨"open", 10, 150, none, none⟩ 5 (.fin 250) = .badIncrement := by
  refine ⟨by decide, by norm_num, ?_⟩
  norm_num [bidDecision, jsRem, jsTrunc]

/-- C2, amended: on an open auction with `now < endTime` and positive
starting bid, a bid of exactly `max(startingBid, currentBid ?? 0) + 100`
is accepted provided that amount is a multiple of 100 (which the route
checks first); any smaller amount that passed the earlier checks
(finite, positive, multiple of 100) is rejected with BelowMinimum
carrying that minimum.  The spec scenario holds: with
`startingBid = 1000` and no bids, 1000 is rejected with minimum 1100,
1100 is accepted and sets `current_bid = 1100`, and 1150 is rejected
with BadIncrement. -/
theorem next_increment_accepted_and_below_minimum_rejected
    (a : Auction) (now : ℤ)
    (hopen : a.status = "open") (htime : now < a.endTime)
    (hpos : 0 < a.startingBid) :
    (jsRem (max a.startingBid (a.currentBid.getD 0) + 100) 100 = 0 →
      bidDecision a now (.fin (max a.startingBid (a.currentBid.getD 0) + 100)) =
        .accepted (max a.startingBid (a.currentBid.getD 0) + 100))
    ∧ (∀ q : ℚ, 0 < q → jsRem q 100 = 0 →
        q < max a.startingBid (a.currentBid.getD 0) + 100 →
        bidDecision a now (.fin q) =
          .belowMinimum (max a.startingBid (a.currentBid.getD 0) + 100))
    ∧ bidDecision ⟨"open", 10, 1000, none, none⟩ 0 (.fin 1000) = .belowMinimum 1100
    ∧ (placeBidRoute ⟨[], ⟨"open", 10, 1000, none, none⟩⟩ 1 7 0 3
        (.fin 1100)).1 = .accepted 1100
    ∧ (placeBidRoute ⟨[], ⟨"open", 10, 1000, none, none⟩⟩ 1 7 0 3
        (.fin 1100)).2.auction.currentBid = some 1100
    ∧ bidDecision ⟨"open", 10, 1000, none, none⟩ 0 (.fin 1150) = .badIncrement := by
  have hnot : ¬(a.endTime < now ∨ a.status ≠ "open") := by
    push_neg
    exact ⟨le_of_lt htime, hopen⟩
  have hposmin : 0 < max a.startingBid (a.currentBid.getD 0) + 100 := by
    have := le_max_left a.startingBid (a.currentBid.getD 0)
    linarith
  refine ⟨?_, ?_, ?_, ?_, ?_, ?_⟩
  · intro hrem
    simp only [bidDecision, if_neg hnot]
    rw [if_neg (not_le.mpr hposmin), if_neg (not_not_intro hrem),
      if_neg (lt_irrefl _)]
  · intro q hq hrem hlt
    simp only [bidDecision, if_neg hnot]
    rw [if_neg (not_le.mpr hq), if_neg (not_not_intro hrem), if_pos hlt]
  · norm_num [bidDecision, jsRem, jsTrunc]
  · norm_num [bidDecision, jsRem, jsTrunc, placeBidRoute, sqliteTransaction,
      acceptedBidWrites, runWritesFrom, insertBidWrite, updateAuctionBidWrite]
  · norm_num [bidDecision, jsRem, jsTrunc, placeBidRoute, sqliteTransaction,
      acceptedBidWrites, runWritesFrom, insertBidWrite, updateAuctionBidWrite]
  · norm_num [bidDecision, jsRem, jsTrunc]

/-- Witness for the C2 amended theorem at the spec scenario auction. -/
theorem next_increment_accepted_witness :
    bidDecision ⟨"open", 10, 1000, none, none⟩ 0 (.fin 1100) = .accepted 1100 := by
  have h := next_increment_accepted_and_below_minimum_rejected
    ⟨"open", 10, 1000, none, none⟩ 0 rfl (by decide) (by norm_num)
  have h1 := h.1 (by norm_num [jsRem, jsTrunc])
  norm_num at h1
  exact h1

/-- C3, counterexample: at the boundary instant `now = endTime` the
route does not reject with AuctionEnded — `dayjs(end_time).isBefore(now)`
is strict — and a valid bid is accepted. -/
theorem boundary_bid_accepted_at_end_time :
    (5 : ℤ) ≤ 5
    ∧ bidDecision ⟨"open", 5, 1000, none, none⟩ 5 (.fin 1100) = .accepted 1100 := by
  refine ⟨le_refl 5, ?_⟩
  norm_num [bidDecision, jsRem, jsTrunc]

/-- C3, amended: whenever `now > endTime` (strictly), every bid is
rejected with AuctionEnded regardless of the proposed amount, before any
amount check runs. -/
theorem auction_ended_rejects_every_amount
    (a : Auction) (now : ℤ) (amt : JSNum) (h : a.endTime < now) :
    bidDecision a now amt = .auctionEnded := by
  simp [bidDecision, h]

/-- Witness for the C3 amended theorem: one tick past the end time even
a NaN amount is rejected with AuctionEnded. -/
theorem auction_ended_rejects_every_amount_witness :
    bidDecision ⟨"open", 5, 1000, none, none⟩ 6 .nan = .auctionEnded :=
  auction_ended_rejects_every_amount ⟨"open", 5, 1000, none, none⟩ 6 .nan
    (by decide)

/-- C4, counterexample: the amount 100.5 is finite, positive and not an
integer (it lies strictly between 100 and 101), yet the route rejects it
with BadIncrement — `Number.isFinite(amt) && amt > 0` lets it through
the InvalidAmount check and `100.5 % 100 !== 0` fires instead. -/
theorem noninteger_amount_rejected_with_bad_increment :
    (100 : ℚ) < 201 / 2
    ∧ (201 : ℚ) / 2 < 101
    ∧ bidDecision ⟨"open", 10, 1000, none, none⟩ 0 (.fin (201 / 2)) =
        .badIncrement := by
  refine ⟨by norm_num, by norm_num, ?_⟩
  norm_num [bidDecision, jsRem, jsTrunc]

/-- C4, amended: on an open, unexpired auction, NaN, infinite, zero and
negative amounts are rejected with InvalidAmount; a finite positive
non-integer amount (denominator not 1) passes that check and is rejected
with BadIncrement instead, since no non-integer is a multiple of 100. -/
theorem invalid_amount_classification
    (a : Auction) (now : ℤ)
    (hopen : a.status = "open") (htime : ¬(a.endTime < now)) :
    (∀ amt : JSNum, amt.isFinite = false → bidDecision a now amt = .invalidAmount)
    ∧ (∀ q : ℚ, q ≤ 0 → bidDecision a now (.fin q) = .invalidAmount)
    ∧ (∀ q : ℚ, 0 < q → q.den ≠ 1 → bidDecision a now (.fin q) = .badIncrement) := by
  have hnot : ¬(a.endTime < now ∨ a.status ≠ "open") := by
    push_neg
    exact ⟨not_lt.mp htime, hopen⟩
  refine ⟨?_, ?_, ?_⟩
  · intro amt hfin
    cases amt with
    | nan => simp [bidDecision, if_neg hnot]
    | posInf => simp [bidDecision, if_neg hnot]
    | negInf => simp [bidDecision, if_neg hnot]
    | fin q => simp [JSNum.isFinite] at hfin
  · intro q hq
    simp only [bidDecision, if_neg hnot]
    rw [if_pos hq]
  · intro q hq hden
    have hrem : jsRem q 100 ≠ 0 := fun h =>
      hden (den_eq_one_of_jsRem_hundred_eq_zero q h)
    simp only [bidDecision, if_neg hnot]
    rw [if_neg (not_le.mpr hq), if_pos hrem]

/-- Witness for the C4 amended theorem: NaN is rejected with
InvalidAmount and the non-integer 201/2 with BadIncrement on a concrete
open auction. -/
theorem invalid_amount_classification_witness :
    bidDecision ⟨"open", 10, 1000, none, none⟩ 0 .nan = .invalidAmount
    ∧ bidDecision ⟨"open", 10, 1000, none, none⟩ 0 (.fin (mkRat 201 2)) =
        .badIncrement := by
  have h := invalid_amount_classification ⟨"open", 10, 1000, none, none⟩ 0
    rfl (by decide)
  exact ⟨h.1 .nan rfl, h.2.2 (mkRat 201 2) (by decide) (by decide)⟩

/-! ## ShippingManager (`src/services/shippingManager.js`)

A carrier adapter (FedEx or UPS service object) is modelled by its
observable behaviour for one shipment: whether `isConfigured()` holds,
and the outcomes of `getRates` and `createShippingLabel` (`.error`
models a thrown exception — auth failure, network failure, malformed
response).  Rate costs are exact rationals; comparisons mirror the
JavaScript comparisons on numbers. -/

structure CarrierRate where
  carrier : String
  service : String
  serviceName : String
  cost : ℚ
  transitTime : Option String
deriving DecidableEq, Repr

structure ShippingLabel where
  carrier : String
  trackingNumber : String
  labelUrl : String
  cost : ℚ
deriving DecidableEq, Repr

deriving instance DecidableEq for Except

structure CarrierAdapter where
  configured : Bool
  ratesResult : Except String (List CarrierRate)
  labelResult : Except String ShippingLabel
deriving DecidableEq, Repr

/-- The manager holds exactly the two duck-typed services it constructs:
`this.fedexService` and `this.upsService`. -/
structure ShippingManager where
  fedex : CarrierAdapter
  ups : CarrierAdapter
deriving DecidableEq, Repr

/-- ASCII lowercasing of one character, as `toLowerCase` acts on the
ASCII carrier codes and product names this code handles. -/
def lowerChar (c : Char) : Char :=
  if 'A' ≤ c ∧ c ≤ 'Z' then Char.ofNat (c.toNat + 32) else c

/-- Model of `String.prototype.toLowerCase` (ASCII). -/
def jsToLower (s : String) : String :=
  ⟨s.data.map lowerChar⟩

/-- Ordering by `cost`, the comparator `(a, b) => a.cost - b.cost`. -/
def costLE (a b : CarrierRate) : Prop := a.cost ≤ b.cost

instance : DecidableRel costLE := fun a b =>
  inferInstanceAs (Decidable (a.cost ≤ b.cost))

instance : IsTotal CarrierRate costLE := ⟨fun a b => le_total a.cost b.cost⟩

instance : IsTrans CarrierRate costLE := ⟨fun _ _ _ hab hbc => le_trans hab hbc⟩

/-- Model of `allRates.sort((a, b) => a.cost - b.cost)`: a stable sort
ascending by cost (Array.prototype.sort is stable). -/
def sortByCost (rates : List CarrierRate) : List CarrierRate :=
  List.insertionSort costLE rates

/-- `getAvailableCarriers`: the codes of the configured services, FedEx
first, as the source pushes them. -/
def getAvailableCarriers (m : ShippingManager) : List String :=
  (if m.fedex.configured then ["fedex"] else [])
    ++ (if m.ups.configured then ["ups"] else [])

/-- `getCarrierService`: switch on the lowercased carrier code, returning
the service only when it is configured, else null. -/
def getCarrierService (m : ShippingManager) (carrier : String) :
    Option CarrierAdapter :=
  if jsToLower carrier = "fedex" then
    (if m.fedex.configured then some m.fedex else none)
  else if jsToLower carrier = "ups" then
    (if m.ups.configured then some m.ups else none)
  else none

/-- `getAllRates`: loop over the available carriers; for each, call
`service.getRates` inside try/catch — a throwing adapter is logged and
skipped, never aborting the loop; finally sort everything by cost. -/
def getAllRates (m : ShippingManager) : List CarrierRate :=
  let allRates := (getAvailableCarriers m).foldl
    (fun acc code =>
      match getCarrierService m code with
      | some service =>
        match service.ratesResult with
        | .ok rates => acc ++ rates
        | .error _ => acc
      | none => acc)
    []
  sortByCost allRates

/-- Model of JavaScript `parseInt` as the manager uses it on transit-time
strings: skip spaces, optional sign, then the leading run of digits;
none models NaN. -/
def parseDigits (cs : List Char) : Option ℕ :=
  let ds := cs.takeWhile Char.isDigit
  if ds.isEmpty then none
  else some (ds.foldl (fun n c => 10 * n + (c.toNat - 48)) 0)

def jsParseInt (s : String) : Option ℤ :=
  match s.data.dropWhile (fun c => c = ' ') with
  | '-' :: rest => (parseDigits rest).map (fun n => -(n : ℤ))
  | '+' :: rest => (parseDigits rest).map (fun n => (n : ℤ))
  | cs => (parseDigits cs).map (fun n => (n : ℤ))

/-- The `preferences` object of `getBestRate`; a `none` field is an
absent key.  A present numeric 0 or empty string is falsy in the
JavaScript `if (preferences.x)` guards, which the stage functions below
reproduce. -/
structure Preferences where
  maxCost : Option ℚ
  maxTransitDays : Option ℚ
  preferredCarrier : Option String
deriving DecidableEq, Repr

def noPreferences : Preferences := ⟨none, none, none⟩

/-- The `if (preferences.maxCost)` block of `getBestRate`. -/
def costCeilingStage (prefs : Preferences) (rates : List CarrierRate) :
    List CarrierRate :=
  match prefs.maxCost with
  | some c => if c ≠ 0 then rates.filter (fun r => r.cost ≤ c) else rates
  | none => rates

/-- The transit-time filter callback of the `maxTransitDays` block:
keeps a rate when `transitTime` is falsy (absent or empty), equals
`Unknown`, or parses to at most the ceiling (`parseInt` NaN compares
false, dropping the rate). -/
def transitDaysKeep (maxDays : ℚ) (r : CarrierRate) : Bool :=
  match r.transitTime with
  | none => true
  | some t =>
    t = "" || t = "Unknown" ||
      (match jsParseInt t with
       | some n => decide ((n : ℚ) ≤ maxDays)
       | none => false)

/-- The `if (preferences.maxTransitDays)` block of `getBestRate`. -/
def transitCeilingStage (prefs : Preferences) (rates : List CarrierRate) :
    List CarrierRate :=
  match prefs.maxTransitDays with
  | some d => if d ≠ 0 then rates.filter (transitDaysKeep d) else rates
  | none => rates

/-- The `if (preferences.preferredCarrier)` block: restrict to the
preferred carrier's rates only when some survive the earlier filters. -/
def preferredCarrierStage (prefs : Preferences) (rates : List CarrierRate) :
    List CarrierRate :=
  match prefs.preferredCarrier with
  | some pc =>
    if pc ≠ "" then
      let preferredRates := rates.filter (fun r => r.carrier = jsToLower pc)
      if preferredRates ≠ [] then preferredRates else rates
    else rates
  | none => rates

/-- `getBestRate`: throw `No shipping rates available` when the
aggregated list is empty; otherwise run the three preference blocks in
source order and return `filteredRates[0]` (undefined, i.e. `none`, when
the filtered list is empty). -/
def getBestRate (m : ShippingManager) (prefs : Preferences) :
    Except String (Option CarrierRate) :=
  let allRates := getAllRates m
  if allRates = [] then .error "No shipping rates available"
  else
    .ok (preferredCarrierStage prefs
      (transitCeilingStage prefs (costCeilingStage prefs allRates))).head?

/-- Spec-level error taxonomy of the orchestrator.  Both thrown messages
`No shipping rates available` (empty aggregation) and
`No suitable shipping rates found` (all rates filtered away) are
NoRatesAvailable-kind failures; label-creation problems are distinct. -/
inductive ShipError where
  | noRatesAvailable (msg : String)
  | carrierNotConfigured (carrier : String)
  | labelCreationFailed (msg : String)
deriving DecidableEq, Repr

/-- `createShippingLabel(carrier, details)`: throw when the carrier is
not configured, else return the adapter's label outcome. -/
def createShippingLabel (m : ShippingManager) (carrier : String) :
    Except ShipError ShippingLabel :=
  match getCarrierService m carrier with
  | none => .error (.carrierNotConfigured carrier)
  | some service =>
    match service.labelResult with
    | .ok label => .ok label
    | .error e => .error (.labelCreationFailed e)

/-- `createOptimalShipment`: get the best rate (rethrowing its error),
throw `No suitable shipping rates found` when it is undefined, then
create the label with the selected rate's carrier. -/
def createOptimalShipment (m : ShippingManager) (prefs : Preferences) :
    Except ShipError ShippingLabel :=
  match getBestRate m prefs with
  | .error msg => .error (.noRatesAvailable msg)
  | .ok none => .error (.noRatesAvailable "No suitable shipping rates found")
  | .ok (some bestRate) => createShippingLabel m bestRate.carrier

/-! ## Shipment builder (`validateAddress`, `buildShipmentDetails`)

Address fields are `Option String`: `none` is an absent key, `some ""`
a present empty string — both falsy for `!address[field]`. -/

structure Address where
  name : Option String
  line1 : Option String
  line2 : Option String
  city : Option String
  state : Option String
  zip : Option String
  country : Option String
  phone : Option String
deriving DecidableEq, Repr

/-- JavaScript truthiness of an optional string field. -/
def truthyStr : Option String → Bool
  | some s => s ≠ ""
  | none => false

/-- Dynamic field lookup `address[field]` for the fields
`validateAddress` inspects. -/
def addressField (a : Address) : String → Option String
  | "name" => a.name
  | "line1" => a.line1
  | "city" => a.city
  | "state" => a.state
  | "zip" => a.zip
  | _ => none

def requiredAddressFields : List String := ["name", "line1", "city", "state", "zip"]

/-- `required.filter(field => !address[field])`. -/
def missingFields (a : Address) : List String :=
  requiredAddressFields.filter (fun f => !truthyStr (addressField a f))

/-- The regex `/^\d{5}(-\d{4})?$/`. -/
def usZipOk (s : String) : Bool :=
  match s.data with
  | [a, b, c, d, e] =>
      a.isDigit && b.isDigit && c.isDigit && d.isDigit && e.isDigit
  | [a, b, c, d, e, dash, f, g, h, i] =>
      a.isDigit && b.isDigit && c.isDigit && d.isDigit && e.isDigit &&
        dash == '-' && f.isDigit && g.isDigit && h.isDigit && i.isDigit
  | _ => false

/-- `validateAddress`: throw listing the missing required fields, then —
when `address.country === 'US' || !address.country` — throw
`Invalid US zip code format` unless the zip matches the regex. -/
def validateAddress (a : Address) : Except String Unit :=
  if missingFields a ≠ [] then
    .error ("Missing required address fields: "
      ++ String.intercalate ", " (missingFields a))
  else if a.country == some "US" || !truthyStr a.country then
    if !usZipOk (a.zip.getD "") then .error "Invalid US zip code format"
    else .ok ()
  else .ok ()

structure Product where
  brand : String
  name : String
deriving DecidableEq, Repr

structure OrderRow where
  amount : ℚ
deriving DecidableEq, Repr

structure Dimensions where
  length : ℚ
  width : ℚ
  height : ℚ
deriving DecidableEq, Repr

/-- Substring search on character lists, for `String.includes`. -/
def charsContain : List Char → List Char → Bool
  | [], sub => sub.isEmpty
  | c :: rest, sub => sub.isPrefixOf (c :: rest) || charsContain rest sub

/-- `name.includes(sub)`. -/
def jsIncludes (s sub : String) : Bool :=
  charsContain s.data sub.data

/-- `estimateWeight`: 2.0 lb default, 2.5 for names containing `boot` or
`high`, 1.5 for `running` or `lightweight` (lowercased name). -/
def estimateWeight (p : Product) : ℚ :=
  let name := jsToLower p.name
  if jsIncludes name "boot" || jsIncludes name "high" then 5 / 2
  else if jsIncludes name "running" || jsIncludes name "lightweight" then 3 / 2
  else 2

/-- `estimateDimensions`: the default 14 x 10 x 5 inch sneaker box. -/
def estimateDimensions (_p : Product) : Dimensions := ⟨14, 10, 5⟩

structure ShipmentDetails where
  fromAddress : Address
  toAddress : Address
  weight : ℚ
  dimensions : Dimensions
  value : ℚ
  itemDescription : String
  international : Bool
  serviceType : Option String
  serviceCode : Option String
deriving DecidableEq, Repr

/-- The `options` object of `buildShipmentDetails`; `none` is an absent
key. -/
structure BuildOptions where
  weight : Option ℚ
  dimensions : Option Dimensions
  international : Option Bool
  serviceType : Option String
  serviceCode : Option String
deriving DecidableEq, Repr

def noOptions : BuildOptions := ⟨none, none, none, none, none⟩

/-- The trailing `...options` spread of the returned object literal: any
key present in `options` overwrites the field computed before it. -/
def applyOptionsSpread (d : ShipmentDetails) (o : BuildOptions) :
    ShipmentDetails :=
  { d with
    weight := o.weight.getD d.weight
    dimensions := o.dimensions.getD d.dimensions
    international := o.international.getD d.international
    serviceType := o.serviceType.orElse (fun _ => d.serviceType)
    serviceCode := o.serviceCode.orElse (fun _ => d.serviceCode) }

/-- `buildShipmentDetails(order, product, fromAddress, toAddress,
options)`: validate both addresses (exceptions propagate), then build
the object literal — `weight: options.weight || estimateWeight(product)`,
`value: order.amount / 100`, the truncated brand-name description,
`international: fromAddress.country !== toAddress.country` — and apply
the final `...options` spread. -/
def buildShipmentDetails (ord : OrderRow) (p : Product) (fromA toA : Address)
    (opts : BuildOptions) : Except String ShipmentDetails :=
  match validateAddress fromA with
  | .error e => .error e
  | .ok _ =>
    match validateAddress toA with
    | .error e => .error e
    | .ok _ =>
      .ok (applyOptionsSpread
        { fromAddress := fromA
          toAddress := toA
          weight :=
            match opts.weight with
            | some w => if w = 0 then estimateWeight p else w
            | none => estimateWeight p
          dimensions := opts.dimensions.getD (estimateDimensions p)
          value := ord.amount / 100
          itemDescription := (p.brand ++ " " ++ p.name).take 50
          international := fromA.country != toA.country
          serviceType := none
          serviceCode := none } opts)

/-! ## Helper lemmas and fixtures for the shipping claims -/

/-- Whether an `Except` is a success. -/
def exceptIsOk {ε α : Type} : Except ε α → Bool
  | .ok _ => true
  | .error _ => false

/-- The rates of the configured adapters whose `getRates` call
succeeded, in aggregation order (FedEx before UPS): the description of
the multiset `getAllRates` must return. -/
def successfulRates (m : ShippingManager) : List CarrierRate :=
  (if m.fedex.configured then
    match m.fedex.ratesResult with
    | .ok rates => rates
    | .error _ => []
  else [])
  ++ (if m.ups.configured then
    match m.ups.ratesResult with
    | .ok rates => rates
    | .error _ => []
  else [])

theorem jsToLower_fedex : jsToLower "fedex" = "fedex" := by decide

theorem jsToLower_ups : jsToLower "ups" = "ups" := by decide

theorem getAllRates_eq_sort_successful (m : ShippingManager) :
    getAllRates m = sortByCost (successfulRates m) := by
  obtain ⟨⟨fc, fr, fl⟩, ⟨uc, ur, ul⟩⟩ := m
  cases fc <;> cases uc <;> cases fr <;> cases ur <;>
    simp [getAllRates, getAvailableCarriers, getCarrierService,
      successfulRates, jsToLower_fedex, jsToLower_ups]

theorem getAllRates_sorted (m : ShippingManager) :
    List.Sorted costLE (getAllRates m) := by
  rw [getAllRates_eq_sort_successful]
  exact List.sorted_insertionSort costLE _

theorem costCeilingStage_sorted (prefs : Preferences) {rates : List CarrierRate}
    (h : List.Sorted costLE rates) :
    List.Sorted costLE (costCeilingStage prefs rates) := by
  simp only [costCeilingStage]
  split
  · split
    · exact List.Pairwise.filter _ h
    · exact h
  · exact h

theorem transitCeilingStage_sorted (prefs : Preferences) {rates : List CarrierRate}
    (h : List.Sorted costLE rates) :
    List.Sorted costLE (transitCeilingStage prefs rates) := by
  simp only [transitCeilingStage]
  split
  · split
    · exact List.Pairwise.filter _ h
    · exact h
  · exact h

theorem preferredCarrierStage_sorted (prefs : Preferences) {rates : List CarrierRate}
    (h : List.Sorted costLE rates) :
    List.Sorted costLE (preferredCarrierStage prefs rates) := by
  simp only [preferredCarrierStage]
  split
  · split
    · split
      · exact List.Pairwise.filter _ h
      · exact h
    · exact h
  · exact h

/-- Fixtures: the two-carrier scenario of the spec (ups 9.75 cheaper
than fedex 12.50), with FedEx reporting an unknown transit time. -/
def fedexGroundRate : CarrierRate :=
  ⟨"fedex", "FEDEX_GROUND", "FedEx Ground", mkRat 25 2, some "Unknown"⟩

def upsGroundRate : CarrierRate :=
  ⟨"ups", "03", "UPS Ground", mkRat 39 4, some "3"⟩

def fedexLabelFixture : ShippingLabel :=
  ⟨"fedex", "794600000001", "https://fedex.example/label1", mkRat 25 2⟩

def upsLabelFixture : ShippingLabel :=
  ⟨"ups", "1Z999AA10123456784", "https://ups.example/label2", mkRat 39 4⟩

def bothCarriersManager : ShippingManager :=
  ⟨⟨true, .ok [fedexGroundRate], .ok fedexLabelFixture⟩,
   ⟨true, .ok [upsGroundRate], .ok upsLabelFixture⟩⟩

def sneakerProduct : Product := ⟨"Nike", "Air Max 90"⟩

def addrNoCountryBadZip : Address :=
  ⟨some "Alice Doe", some "1 Main St", none, some "Springfield", some "CA",
    some "ABCDE", none, none⟩

def usGoodAddr : Address :=
  ⟨some "Bob Roe", some "2 Oak Ave", none, some "Portland", some "OR",
    some "97201", some "US", none⟩

def usGoodAddr2 : Address :=
  ⟨some "Cara Poe", some "3 Pine Rd", none, some "Austin", some "TX",
    some "73301-1234", some "US", none⟩

def caGoodAddr : Address :=
  ⟨some "Dan Moe", some "4 Elm Ct", none, some "Toronto", some "ON",
    some "M5V 2T6", some "CA", none⟩

/-! ### Claim theorems for the shipping manager -/

/-- C5: `getAllRates` returns exactly the rates of the configured
adapters whose `getRates` succeeded (a permutation of that multiset),
sorted ascending by cost; a throwing adapter is excluded without
aborting the loop, and when every adapter fails the result is the empty
list — the function is total, never an exception. -/
theorem rate_aggregation_successful_rates_sorted (m : ShippingManager) :
    (getAllRates m).Perm (successfulRates m)
    ∧ List.Sorted costLE (getAllRates m)
    ∧ (∀ eFedex eUps, m.fedex.ratesResult = .error eFedex →
        m.ups.ratesResult = .error eUps → getAllRates m = []) := by
  refine ⟨?_, getAllRates_sorted m, ?_⟩
  · rw [getAllRates_eq_sort_successful]
    exact List.perm_insertionSort costLE _
  · intro eFedex eUps h1 h2
    rw [getAllRates_eq_sort_successful]
    obtain ⟨⟨fc, fr, fl⟩, ⟨uc, ur, ul⟩⟩ := m
    simp only at h1 h2
    subst h1
    subst h2
    cases fc <;> cases uc <;> simp [successfulRates, sortByCost]

/-- Witness for C5: with both adapters failing (auth error, timeout),
`getAllRates` returns the empty list. -/
theorem rate_aggregation_witness :
    getAllRates
      ⟨⟨true, .error "FedEx authentication failed", .error "FedEx down"⟩,
       ⟨true, .error "UPS request timeout", .error "UPS down"⟩⟩ = [] := by
  have h := rate_aggregation_successful_rates_sorted
    ⟨⟨true, .error "FedEx authentication failed", .error "FedEx down"⟩,
     ⟨true, .error "UPS request timeout", .error "UPS down"⟩⟩
  exact h.2.2 "FedEx authentication failed" "UPS request timeout" rfl rfl

/-- C6: when any rates were aggregated, `getBestRate` applies the
preference stages in the order max-cost ceiling, max-transit-days
ceiling, preferred-carrier pin, and returns the first remaining rate;
that rate is cheapest among the filtered set (the aggregated list is
sorted and every stage preserves the order); and when the filtered set
is empty `createOptimalShipment` fails with a NoRatesAvailable-kind
error (`No shipping rates available` when nothing was aggregated,
`No suitable shipping rates found` when the filters removed
everything). -/
theorem optimal_shipment_filter_order_and_cheapest_selection
    (m : ShippingManager) (prefs : Preferences) :
    (getAllRates m ≠ [] →
      getBestRate m prefs =
        .ok (preferredCarrierStage prefs
          (transitCeilingStage prefs
            (costCeilingStage prefs (getAllRates m)))).head?)
    ∧ (∀ best, getBestRate m prefs = .ok (some best) →
        ∀ r ∈ preferredCarrierStage prefs
            (transitCeilingStage prefs
              (costCeilingStage prefs (getAllRates m))),
          best.cost ≤ r.cost)
    ∧ (preferredCarrierStage prefs
        (transitCeilingStage prefs
          (costCeilingStage prefs (getAllRates m))) = [] →
        ∃ msg, createOptimalShipment m prefs = .error (.noRatesAvailable msg)) := by
  have hsorted : List.Sorted costLE
      (preferredCarrierStage prefs
        (transitCeilingStage prefs (costCeilingStage prefs (getAllRates m)))) :=
    preferredCarrierStage_sorted prefs
      (transitCeilingStage_sorted prefs
        (costCeilingStage_sorted prefs (getAllRates_sorted m)))
  refine ⟨?_, ?_, ?_⟩
  · intro hne
    simp only [getBestRate, if_neg hne]
  · intro best hbest r hr
    by_cases hall : getAllRates m = []
    · simp only [getBestRate, if_pos hall] at hbest
      simp at hbest
    · simp only [getBestRate, if_neg hall, Except.ok.injEq] at hbest
      rcases hp : preferredCarrierStage prefs
          (transitCeilingStage prefs
            (costCeilingStage prefs (getAllRates m))) with _ | ⟨hd, tl⟩
      · rw [hp] at hbest
        simp at hbest
      · rw [hp] at hbest hr
        rw [hp] at hsorted
        simp only [List.head?_cons, Option.some.injEq] at hbest
        subst hbest
        rcases List.mem_cons.mp hr with hfst | hmem
        · subst hfst
          exact le_refl _
        · exact List.rel_of_sorted_cons hsorted r hmem
  · intro hempty
    by_cases hall : getAllRates m = []
    · exact ⟨"No shipping rates available",
        by simp [createOptimalShipment, getBestRate, if_pos hall]⟩
    · refine ⟨"No suitable shipping rates found", ?_⟩
      have hbr : getBestRate m prefs = .ok none := by
        simp only [getBestRate, if_neg hall, hempty, List.head?_nil]
      simp [createOptimalShipment, hbr]

/-- Witness for C6: with both carriers returning one rate each and no
preferences, the pipeline keeps everything and the cheaper UPS rate is
selected and used for the label. -/
theorem optimal_shipment_selection_witness :
    getBestRate bothCarriersManager noPreferences = .ok (some upsGroundRate)
    ∧ createOptimalShipment bothCarriersManager noPreferences = .ok upsLabelFixture := by
  have h := optimal_shipment_filter_order_and_cheapest_selection
    bothCarriersManager noPreferences
  have h1 := h.1 (by decide)
  constructor
  · rw [h1]
    decide
  · decide

/-- The failure condition C7 claims for `buildShipmentDetails`: a
required field missing on either address, or a zip failing the US format
check on an address whose country is `US`. -/
def claimInvalidAddress (a : Address) : Bool :=
  !(missingFields a).isEmpty
    || (a.country == some "US" && !usZipOk (a.zip.getD ""))

/-- C7, counterexample: an address with every required field present and
no country at all is not a US address and has no missing field — the
claimed failure condition is false for both addresses — yet
`buildShipmentDetails` still fails, because `validateAddress` applies
the US zip check whenever the country is falsy and the zip `ABCDE` does
not match. -/
theorem build_fails_without_us_country_despite_claim :
    claimInvalidAddress addrNoCountryBadZip = false
    ∧ claimInvalidAddress usGoodAddr = false
    ∧ buildShipmentDetails ⟨100⟩ sneakerProduct addrNoCountryBadZip usGoodAddr
        noOptions = .error "Invalid US zip code format" := by
  refine ⟨by decide, by decide, by decide⟩

/-- The code's actual per-address validity: every required field truthy,
and when the country is `US` or falsy the zip matches
`NNNNN` or `NNNNN-NNNN`. -/
def validAddressCheck (a : Address) : Bool :=
  (missingFields a).isEmpty
    && (!(a.country == some "US" || !truthyStr a.country)
        || usZipOk (a.zip.getD ""))

theorem validateAddress_isOk_eq (a : Address) :
    exceptIsOk (validateAddress a) = validAddressCheck a := by
  by_cases h1 : missingFields a ≠ []
  · have h1' : (missingFields a).isEmpty = false := by
      simp [List.isEmpty_iff, h1]
    simp [validateAddress, validAddressCheck, if_pos h1, h1', exceptIsOk]
  · push_neg at h1
    have h1' : (missingFields a).isEmpty = true := by simp [List.isEmpty_iff, h1]
    cases hc : (a.country == some "US" || !truthyStr a.country) with
    | false => simp [validateAddress, validAddressCheck, h1, h1', hc, exceptIsOk]
    | true =>
      cases hz : usZipOk (a.zip.getD "") with
      | false => simp [validateAddress, validAddressCheck, h1, h1', hc, hz, exceptIsOk]
      | true => simp [validateAddress, validAddressCheck, h1, h1', hc, hz, exceptIsOk]

/-- C7, amended: `buildShipmentDetails` succeeds exactly when both
addresses pass the code's check — all required fields truthy, and the
US zip format holds whenever the country is `US` **or missing/empty**;
an address with an explicit non-US country gets no zip validation.  On
success it returns the built ShipmentDetails, otherwise it throws the
address error. -/
theorem build_shipment_validity (ord : OrderRow) (p : Product)
    (fromA toA : Address) (opts : BuildOptions) :
    exceptIsOk (buildShipmentDetails ord p fromA toA opts) =
      (validAddressCheck fromA && validAddressCheck toA) := by
  have hf := validateAddress_isOk_eq fromA
  have ht := validateAddress_isOk_eq toA
  cases hva : validateAddress fromA with
  | error e =>
    rw [hva] at hf
    simp only [exceptIsOk] at hf
    simp [buildShipmentDetails, hva, exceptIsOk, ← hf]
  | ok u =>
    rw [hva] at hf
    simp only [exceptIsOk] at hf
    cases hvb : validateAddress toA with
    | error e =>
      rw [hvb] at ht
      simp only [exceptIsOk] at ht
      simp [buildShipmentDetails, hva, hvb, exceptIsOk, ← hf, ← ht]
    | ok v =>
      rw [hvb] at ht
      simp only [exceptIsOk] at ht
      simp [buildShipmentDetails, hva, hvb, exceptIsOk, ← hf, ← ht]

/-- C8, counterexample: with identical countries on both addresses, the
claim says `international` is `false` and never taken from the
overrides; but because the object literal ends with `...options`, an
explicit `options.international: true` wins. -/
theorem international_taken_from_overrides :
    usGoodAddr.country = usGoodAddr2.country
    ∧ (buildShipmentDetails ⟨100⟩ sneakerProduct usGoodAddr usGoodAddr2
        ⟨none, none, some true, none, none⟩).map ShipmentDetails.international
      = .ok true := by
  refine ⟨rfl, by decide⟩

/-- C8, amended: on every successful build the `international` field is
`options.international` when that key is present, and the derived
`fromAddress.country !== toAddress.country` otherwise. -/
theorem international_derived_unless_overridden (ord : OrderRow) (p : Product)
    (fromA toA : Address) (opts : BuildOptions) :
    (buildShipmentDetails ord p fromA toA opts).map ShipmentDetails.international =
      (buildShipmentDetails ord p fromA toA opts).map
        (fun _ => opts.international.getD (fromA.country != toA.country)) := by
  cases hva : validateAddress fromA with
  | error e => simp [buildShipmentDetails, hva, Except.map]
  | ok u =>
    cases hvb : validateAddress toA with
    | error e => simp [buildShipmentDetails, hva, hvb, Except.map]
    | ok v => simp [buildShipmentDetails, hva, hvb, Except.map, applyOptionsSpread]

/-- C9: the transit-days filter keeps every rate whose `transitTime` is
absent or the string `Unknown`; concretely, with a transit ceiling of 1
day the UPS rate (3 days) is dropped while the pricier FedEx rate with
unknown transit survives, is selected by `getBestRate`, and its label is
created — an optimal shipment whose actual transit time is unknown. -/
theorem transit_filter_keeps_unknown_transit :
    (∀ (d : ℚ) (r : CarrierRate),
      r.transitTime = none ∨ r.transitTime = some "Unknown" →
      transitDaysKeep d r = true)
    ∧ fedexGroundRate.transitTime = some "Unknown"
    ∧ getBestRate bothCarriersManager ⟨none, some 1, none⟩ =
        .ok (some fedexGroundRate)
    ∧ createOptimalShipment bothCarriersManager ⟨none, some 1, none⟩ =
        .ok fedexLabelFixture := by
  refine ⟨?_, rfl, by decide, by decide⟩
  intro d r h
  rcases h with h | h <;> simp [transitDaysKeep, h]

/-- Witness for C9 at a concrete ceiling and rate. -/
theorem transit_filter_keeps_unknown_transit_witness :
    transitDaysKeep 7 fedexGroundRate = true :=
  transit_filter_keeps_unknown_transit.1 7 fedexGroundRate (Or.inr rfl)

/-- C10: with every required field present, an address whose country is
absent (or an empty string) undergoes the US zip format check and is
rejected when the zip does not match; an address with any explicit
non-US country is accepted with no zip validation at all. -/
theorem us_zip_check_applies_when_country_missing :
    (∀ a : Address, missingFields a = [] →
      (a.country = none ∨ a.country = some "") →
      usZipOk (a.zip.getD "") = false →
      validateAddress a = .error "Invalid US zip code format")
    ∧ (∀ (a : Address) (c : String), missingFields a = [] →
      a.country = some c → c ≠ "US" → c ≠ "" →
      validateAddress a = .ok ()) := by
  constructor
  · intro a hm hc hz
    rcases hc with hc | hc <;>
      simp [validateAddress, hm, hc, truthyStr, hz]
  · intro a c hm hcountry hneUS hneEmpty
    simp [validateAddress, hm, hcountry, truthyStr, hneUS, hneEmpty]

/-- Witness for C10: the countryless bad-zip address is rejected with
the US zip error, while a Canadian address with a non-US-format postal
code passes untouched. -/
theorem us_zip_check_applies_when_country_missing_witness :
    validateAddress addrNoCountryBadZip = .error "Invalid US zip code format"
    ∧ validateAddress caGoodAddr = .ok () :=
  ⟨us_zip_check_applies_when_country_missing.1 addrNoCountryBadZip
      (by decide) (Or.inl rfl) (by decide),
    us_zip_check_applies_when_country_missing.2 caGoodAddr "CA"
      (by decide) rfl (by decide) (by decide)⟩

end KhloesKicks
